import Mathlib

/-!
A shallow embedding of the telemetry agent in `src/syslog.py` (class `LogSensors`).

Conventions used throughout:
* Python exceptions are modelled by the error type `PyErr`; fallible code returns
  `Except PyErr _`.
* Python numbers are modelled exactly: `int` by `ℤ`, `float` results of true
  division by `ℚ`.
* Python dicts are modelled by insertion-ordered association lists with unique
  keys; `dictInsert` mirrors dict assignment and `dict.update` (replace in
  place when the key exists, append otherwise) and `removeKey` mirrors `del`.
* Regular-expression pattern strings are represented by their parsed ASTs
  (`RePat`), covering the fragment of literal characters, `.`, and `*` on an
  atom; anchors are not modelled.  `re_match` has the semantics of Python's
  `re.match`: the pattern is anchored at the start of the key and may match
  any prefix of it.  `re_fullmatch` (used only to state spec-side full-match
  semantics) requires the pattern to consume the whole key.
* Wall-clock reads, the hostname, and the process tag are passed to the
  embedded functions as parameters (they are the only impure reads of
  `format_message`).
-/

/-- Python exception kinds raised by the modelled code paths. -/
inductive PyErr where
  | typeError
  | indexError
  | keyError
  | attributeError
  | valueError
  | zeroDivisionError
deriving DecidableEq

/-- A single-character regular-expression atom: a literal character or `.`. -/
inductive RAtom where
  | lit (c : Char)
  | dot
deriving DecidableEq

/-- One item of a regular expression: an atom, or an atom under `*`. -/
inductive RItem where
  | ch (a : RAtom)
  | star (a : RAtom)
deriving DecidableEq

/-- A parsed regular-expression pattern (a sequence of items). -/
abbrev RePat := List RItem

/-- Does the atom match one character?  (`.` matches any character.) -/
def atomMatch : RAtom → Char → Bool
  | RAtom.lit c, d => c == d
  | RAtom.dot, _ => true

/-- `reFull p s` : the pattern `p` matches exactly the character list `s`
(anchored at both ends).  `a*` may consume any number of `a`-matching
characters. -/
def reFull : RePat → List Char → Bool
  | [], s => s.isEmpty
  | RItem.ch a :: r, s =>
    match s with
    | [] => false
    | c :: s2 => atomMatch a c && reFull r s2
  | RItem.star a :: r, s =>
    (List.range (s.length + 1)).any fun k =>
      (s.take k).all (atomMatch a) && reFull r (s.drop k)

/-- Python's `re.match(p, key)`, as a Boolean: the pattern matches some
prefix of `key`, anchored at the start only.  This is the matching used by
`select_readings` in the source. -/
def re_match (p : RePat) (key : String) : Bool :=
  (List.range (key.data.length + 1)).any fun n => reFull p (key.data.take n)

/-- Modelled from the spec: "full-match semantics against the whole key".
This is `re.fullmatch`-style acceptance, stated only so that the spec's claim
about full-match semantics can be compared with the source's `re.match`. -/
def re_fullmatch (p : RePat) (key : String) : Bool :=
  reFull p key.data

/-- A raw sensor tree: the JSON value produced by the external sensor tool.
Leaves are numbers, inner nodes are string-keyed mappings in iteration
order. -/
inductive SensorTree where
  | leaf (v : ℚ) : SensorTree
  | node (kvs : List (String × SensorTree)) : SensorTree

/-- Python's `reduce(lambda a, b: a + b, xs)` on a list of lists: raises
`TypeError` on an empty sequence (no initial value), otherwise left-folds
list concatenation. -/
def reduceConcat (xs : List (List SensorTree)) : Except PyErr (List SensorTree) :=
  match xs with
  | [] => Except.error PyErr.typeError
  | x :: rest => Except.ok (rest.foldl (fun a b => a ++ b) x)

/-- The base-case list comprehension of `select_readings`:
`[tree[key] for key in tree.keys() if re.match(p, key)]`. -/
def matchedValues (p : RePat) : List (String × SensorTree) → List SensorTree
  | [] => []
  | (k, t) :: kvs =>
    if re_match p k then t :: matchedValues p kvs else matchedValues p kvs

/-- The recursive-case list comprehension of `select_readings`:
for each key matching `p` (in iteration order) run `f` on the child,
propagating the first exception. -/
def selectChildren (f : SensorTree → Except PyErr (List SensorTree)) (p : RePat) :
    List (String × SensorTree) → Except PyErr (List (List SensorTree))
  | [] => Except.ok []
  | (k, child) :: kvs =>
    if re_match p k then
      match f child with
      | Except.error e => Except.error e
      | Except.ok r =>
        match selectChildren f p kvs with
        | Except.error e => Except.error e
        | Except.ok rs => Except.ok (r :: rs)
    else selectChildren f p kvs

/-- `LogSensors.select_readings(sensors_data, sensor_device)`.

* On a numeric leaf both branches iterate `sensors_data.keys()`, which raises
  `AttributeError` on a number.
* `len(sensor_device) == 1`: the comprehension of values under matching keys.
* Otherwise the recursive case; note that `reduce` with no initial value
  raises `TypeError` when no key matches, and `sensor_device[0]` raises
  `IndexError` when the selector list is empty but the node has keys. -/
def select_readings : SensorTree → List RePat → Except PyErr (List SensorTree)
  | SensorTree.leaf _, _ => Except.error PyErr.attributeError
  | SensorTree.node kvs, [] =>
    if kvs.isEmpty then reduceConcat [] else Except.error PyErr.indexError
  | SensorTree.node kvs, [p] => Except.ok (matchedValues p kvs)
  | SensorTree.node kvs, p :: q :: rest =>
    match selectChildren (fun child => select_readings child (q :: rest)) p kvs with
    | Except.error e => Except.error e
    | Except.ok results => reduceConcat results

/-- Apply a fallible function to every element of a list, propagating the
first error (the effect of a list comprehension over fallible subterms). -/
def exceptMap {α β : Type} (f : α → Except PyErr β) : List α → Except PyErr (List β)
  | [] => Except.ok []
  | x :: xs =>
    match f x with
    | Except.error e => Except.error e
    | Except.ok y =>
      match exceptMap f xs with
      | Except.error e => Except.error e
      | Except.ok ys => Except.ok (y :: ys)

/-- A Python/JSON value as it occurs in the message dicts of the source:
an `int`, a `float` (exact, as `ℚ`), a string, or a list of values. -/
inductive JVal where
  | int (z : ℤ)
  | rat (q : ℚ)
  | str (s : String)
  | arr (l : List JVal)

/-- Lookup in an insertion-ordered association list (dict read). -/
def lookupA : List (String × JVal) → String → Option JVal
  | [], _ => none
  | (k, v) :: rest, key => if key = k then some v else lookupA rest key

/-- Dict assignment `d[k] = v`: replace in place if the key exists (keeping
its position), otherwise append.  Also the semantics of each entry of
`dict.update` and of duplicate keys in a dict literal. -/
def dictInsert : List (String × JVal) → String → JVal → List (String × JVal)
  | [], k, v => [(k, v)]
  | (k0, v0) :: rest, k, v =>
    if k0 = k then (k0, v) :: rest else (k0, v0) :: dictInsert rest k v

/-- Build a dict from a literal's entries (later duplicates win, position of
the first occurrence is kept), starting from `start`; with `start = []` this
is a dict literal, otherwise it is `start.update(entries)`. -/
def dictExtend (start : List (String × JVal)) (entries : List (String × JVal)) :
    List (String × JVal) :=
  entries.foldl (fun d kv => dictInsert d kv.1 kv.2) start

/-- `del d[k]` (dict keys are unique, so removing every binding of `k` agrees
with removing the one binding). -/
def removeKey : List (String × JVal) → String → List (String × JVal)
  | [], _ => []
  | (k0, v0) :: rest, k =>
    if k0 = k then removeKey rest k else (k0, v0) :: removeKey rest k

/-- Python `a + b` on message values: numeric addition (int+int stays int,
any float makes a float), string and list concatenation; anything else
raises `TypeError`. -/
def jAdd : JVal → JVal → Except PyErr JVal
  | JVal.int a, JVal.int b => Except.ok (JVal.int (a + b))
  | JVal.int a, JVal.rat q => Except.ok (JVal.rat ((a : ℚ) + q))
  | JVal.rat q, JVal.int a => Except.ok (JVal.rat (q + (a : ℚ)))
  | JVal.rat a, JVal.rat b => Except.ok (JVal.rat (a + b))
  | JVal.str a, JVal.str b => Except.ok (JVal.str (a ++ b))
  | JVal.arr a, JVal.arr b => Except.ok (JVal.arr (a ++ b))
  | _, _ => Except.error PyErr.typeError

/-- `reduce(lambda a, b: a + b, xs)`: `TypeError` on an empty sequence,
otherwise a left fold of `+`. -/
def reduceAdd (xs : List JVal) : Except PyErr JVal :=
  match xs with
  | [] => Except.error PyErr.typeError
  | x :: rest => rest.foldlM jAdd x

/-- Python true division of a message value by `len(readings)`: always a
float; division by zero raises.  For an integer sum the exact quotient is
written `Rat.divInt a n`, which is the rational `a / n`. -/
def jDivNat (v : JVal) (n : ℕ) : Except PyErr JVal :=
  match v with
  | JVal.int a => if n = 0 then Except.error PyErr.zeroDivisionError
                  else Except.ok (JVal.rat (Rat.divInt a (n : ℤ)))
  | JVal.rat q => if n = 0 then Except.error PyErr.zeroDivisionError
                  else Except.ok (JVal.rat (q / (n : ℚ)))
  | _ => Except.error PyErr.typeError

/-- `reduce(lambda a, b: a + b, readings) / len(readings)` — the arithmetic
mean of the samples; the `reduce` raises `TypeError` when there are no
samples (the spec's `EmptyReading`). -/
def meanOf (xs : List JVal) : Except PyErr JVal :=
  match reduceAdd xs with
  | Except.error e => Except.error e
  | Except.ok s => jDivNat s xs.length

/-- `message['Facility'] << 3` with default `3 << 3` (DAEMON); a non-int
value cannot be shifted. -/
def priorityBase (msg : List (String × JVal)) : Except PyErr ℤ :=
  match lookupA msg "Facility" with
  | none => Except.ok ((3 : ℤ) <<< (3 : ℤ))
  | some (JVal.int z) => Except.ok (z <<< (3 : ℤ))
  | some _ => Except.error PyErr.typeError

/-- `value |= message['Priority']` with default `|= 6` (INFO): the numeric
priority value of the header, computed with bitwise or as in the source. -/
def priorityValue (msg : List (String × JVal)) : Except PyErr ℤ :=
  match priorityBase msg with
  | Except.error e => Except.error e
  | Except.ok b =>
    match lookupA msg "Priority" with
    | none => Except.ok (Int.lor b 6)
    | some (JVal.int w) => Except.ok (Int.lor b w)
    | some _ => Except.error PyErr.typeError

/-- `timereported.strftime(f'<{value}>%b %d %X')`: the header token, with the
rendered UTC time passed in as `headerTime`. -/
def mkHeader (v : ℤ) (headerTime : String) : String :=
  "<" ++ toString v ++ ">" ++ headerTime

/-- The result of `format_message`, kept as its components: the first three
tokens of the line, and the final message dict that is serialized as the
`@cee:` JSON payload. -/
structure Formatted where
  header : String
  host : String
  procTag : String
  payload : List (String × JVal)

/-- `message['name']` as used for a dict key in the update literal (a
missing key raises `KeyError`; only string names are modelled). -/
def getName (msg : List (String × JVal)) : Except PyErr String :=
  match lookupA msg "name" with
  | none => Except.error PyErr.keyError
  | some (JVal.str nm) => Except.ok nm
  | some _ => Except.error PyErr.typeError

/-- `message['readings']` as consumed by `reduce` (a missing key raises
`KeyError`, a non-list is not iterable). -/
def getReadings (msg : List (String × JVal)) : Except PyErr (List JVal) :=
  match lookupA msg "readings" with
  | none => Except.error PyErr.keyError
  | some (JVal.arr l) => Except.ok l
  | some _ => Except.error PyErr.typeError

/-- `LogSensors.format_message(message)`.

Impure reads are parameters: `headerTime` (UTC `'%b %d %X'` text), `hn`
(hostname), `tg` (`basename[pid]:` process tag), `iso` (local-timezone
ISO-8601 text).  Steps, in the source's evaluation order: compute the
priority value; build the header; evaluate the update literal
`{'hostname': hn, 'timereported': iso, message['name']: mean(readings)}`
(the name must be present and, in this model, a string; the samples are
summed by `reduce`, so an empty list raises `TypeError`); apply
`message.update`; `del message['readings']`. -/
def format_message (msg : List (String × JVal)) (headerTime hn tg iso : String) :
    Except PyErr Formatted :=
  match priorityValue msg with
  | Except.error e => Except.error e
  | Except.ok v =>
    match getName msg with
    | Except.error e => Except.error e
    | Except.ok nm =>
      match getReadings msg with
      | Except.error e => Except.error e
      | Except.ok l =>
        match meanOf l with
        | Except.error e => Except.error e
        | Except.ok m =>
          let updates := dictExtend []
            [("hostname", JVal.str hn), ("timereported", JVal.str iso), (nm, m)]
          let msg2 := dictExtend msg updates
          Except.ok
            { header := mkHeader v headerTime
              host := hn
              procTag := tg
              payload := removeKey msg2 "readings" }

/-- Tokenizer for Python `str.split()`: walk the characters, collecting the
current token (in reverse) in `acc`; whitespace ends a token, runs of
whitespace produce no empty tokens. -/
def pySplitAux : List Char → List Char → List String
  | [], acc => if acc.isEmpty then [] else [String.mk acc.reverse]
  | c :: cs, acc =>
    if c.isWhitespace then
      if acc.isEmpty then pySplitAux cs []
      else String.mk acc.reverse :: pySplitAux cs []
    else pySplitAux cs (c :: acc)

/-- Python `str.split()`: split on runs of whitespace, no empty tokens. -/
def pySplit (s : String) : List String :=
  pySplitAux s.data []

/-- Accumulate the value of a decimal digit run; `none` on a non-digit. -/
def digitsValAux : List Char → ℕ → Option ℕ
  | [], acc => some acc
  | c :: cs, acc =>
    if c.isDigit then digitsValAux cs (acc * 10 + (c.toNat - 48)) else none

/-- The value of a nonempty decimal digit run. -/
def digitsVal : List Char → Option ℕ
  | [] => none
  | cs => digitsValAux cs 0

/-- Python `int(s)` on a string: optional surrounding whitespace, an optional
sign, then decimal digits; anything else raises `ValueError`. -/
def pyIntChars (cs : List Char) : Option ℤ :=
  match ((cs.dropWhile Char.isWhitespace).reverse.dropWhile Char.isWhitespace).reverse with
  | [] => none
  | c :: ds =>
    if c = '-' then (digitsVal ds).map fun n => -(n : ℤ)
    else if c = '+' then (digitsVal ds).map fun n => (n : ℤ)
    else (digitsVal (c :: ds)).map fun n => (n : ℤ)

/-- Python `int(s)` on a string, raising `ValueError` when unparsable. -/
def pyInt (s : String) : Except PyErr ℤ :=
  match pyIntChars s.data with
  | some z => Except.ok z
  | none => Except.error PyErr.valueError

/-- The attribute branch of `load_disk`'s line loop:
`if line and line[0] in ['190', '194']: message['readings'] = [int(line[9])]`.
A recognized line with fewer than 10 tokens raises `IndexError`; a
non-integer tenth token raises `ValueError`. -/
def attrStep (msg : List (String × JVal)) (toks : List String) :
    Except PyErr (List (String × JVal)) :=
  match toks with
  | [] => Except.ok msg
  | t0 :: _ =>
    if t0 = "190" ∨ t0 = "194" then
      match toks[9]? with
      | none => Except.error PyErr.indexError
      | some t9 =>
        match pyInt t9 with
        | Except.error e => Except.error e
        | Except.ok z => Except.ok (dictInsert msg "readings" (JVal.arr [JVal.int z]))
    else Except.ok msg

/-- A label branch of `load_disk`'s line loop, e.g.
`if line and line[0] == 'Device' and line[1] == 'Model:':
   message['model'] = ' '.join(line[2:])`.
Short-circuit evaluation reaches `line[1]` only when `line[0]` matched, and
then raises `IndexError` if the line has a single token. -/
def labelStep (label0 label1 field : String) (msg : List (String × JVal))
    (toks : List String) : Except PyErr (List (String × JVal)) :=
  match toks with
  | [] => Except.ok msg
  | t0 :: rest =>
    if t0 = label0 then
      match rest with
      | [] => Except.error PyErr.indexError
      | t1 :: rest2 =>
        if t1 = label1 then
          Except.ok (dictInsert msg field (JVal.str (String.intercalate " " rest2)))
        else Except.ok msg
    else Except.ok msg

/-- One iteration of `load_disk`'s `for line in stdout.splitlines()` loop. -/
def loadDiskLine (msg : List (String × JVal)) (line : String) :
    Except PyErr (List (String × JVal)) :=
  let toks := pySplit line
  match attrStep msg toks with
  | Except.error e => Except.error e
  | Except.ok m1 =>
    match labelStep "Device" "Model:" "model" m1 toks with
    | Except.error e => Except.error e
    | Except.ok m2 => labelStep "Serial" "Number:" "serial" m2 toks

/-- The parsing part of `LogSensors.load_disk`: fold the line loop over the
tool's output lines, starting from `{'name': disk_name}`. -/
def loadDiskParse (diskName : String) (lines : List String) :
    Except PyErr (List (String × JVal)) :=
  lines.foldlM loadDiskLine [("name", JVal.str diskName)]

/-- `LogSensors.load_disk`, from the tool's output lines to the list of
messages appended to the batch for this disk:
`if 'readings' in message: self.data.append(await self.format_message(message))`. -/
def load_disk (diskName : String) (lines : List String) (headerTime hn tg iso : String) :
    Except PyErr (List Formatted) :=
  match loadDiskParse diskName lines with
  | Except.error e => Except.error e
  | Except.ok msg =>
    match lookupA msg "readings" with
    | none => Except.ok []
    | some _ =>
      match format_message msg headerTime hn tg iso with
      | Except.error e => Except.error e
      | Except.ok f => Except.ok [f]

/-- Does a line's first whitespace token name a recognized health attribute? -/
def isAttrLine (line : String) : Bool :=
  match pySplit line with
  | [] => false
  | t0 :: _ => decide (t0 = "190" ∨ t0 = "194")

/-- Does any output line carry a recognized health attribute? -/
def hasAttr (lines : List String) : Bool :=
  lines.any isAttrLine

/-- Well-formedness of one tool-output line for `load_disk`: a recognized
attribute line has a tenth token parsing as an integer, and a line starting
with `Device` or `Serial` has a second token. -/
def lineOk (line : String) : Bool :=
  match pySplit line with
  | [] => true
  | t0 :: rest =>
    (if t0 = "190" ∨ t0 = "194" then
        match (t0 :: rest)[9]? with
        | none => false
        | some t9 =>
          match pyInt t9 with
          | Except.ok _ => true
          | Except.error _ => false
      else true)
    && (if t0 = "Device" then !rest.isEmpty else true)
    && (if t0 = "Serial" then !rest.isEmpty else true)

/-- Invariant carried by the message dict across `load_disk`'s line loop. -/
def diskInv (diskName : String) (msg : List (String × JVal)) : Prop :=
  lookupA msg "Facility" = none ∧
  lookupA msg "Priority" = none ∧
  lookupA msg "name" = some (JVal.str diskName) ∧
  (lookupA msg "readings" = none ∨
    ∃ z : ℤ, lookupA msg "readings" = some (JVal.arr [JVal.int z]))

/-- One lowercase hexadecimal digit. -/
def hexDigit (n : ℕ) : Char :=
  if n < 10 then Char.ofNat (48 + n) else Char.ofNat (87 + n)

/-- Four lowercase hexadecimal digits, most significant first. -/
def hex4 (n : ℕ) : String :=
  String.mk [hexDigit (n / 4096 % 16), hexDigit (n / 256 % 16),
             hexDigit (n / 16 % 16), hexDigit (n % 16)]

/-- How `json.dumps` (default `ensure_ascii=True`) renders one character of
a string: the two-character escapes, `\uXXXX` for other characters outside
`0x20`–`0x7e` (surrogate pairs beyond the BMP), the character itself
otherwise. -/
def jsonEscapeChar (c : Char) : String :=
  if c = Char.ofNat 34 then "\\\""
  else if c = Char.ofNat 92 then "\\\\"
  else if c = Char.ofNat 10 then "\\n"
  else if c = Char.ofNat 13 then "\\r"
  else if c = Char.ofNat 9 then "\\t"
  else if c = Char.ofNat 8 then "\\b"
  else if c = Char.ofNat 12 then "\\f"
  else if c.toNat < 32 ∨ c.toNat ≥ 127 then
    if c.toNat < 65536 then "\\u" ++ hex4 c.toNat
    else "\\u" ++ hex4 (55296 + (c.toNat - 65536) / 1024) ++
         "\\u" ++ hex4 (56320 + (c.toNat - 65536) % 1024)
  else String.singleton c

/-- `json.dumps` of one string. -/
def jsonEscape (s : String) : String :=
  "\"" ++ String.join (s.data.map jsonEscapeChar) ++ "\""

/-- `json.dumps(strings, indent=2)`: the 2-space-indented JSON array printed
by the dry-run sink. -/
def dumpsIndent2 (l : List String) : String :=
  match l with
  | [] => "[]"
  | _ => "[\n  " ++ String.intercalate ",\n  " (l.map jsonEscape) ++ "\n]"

/-- Externally visible actions of one `send_data` call. -/
inductive SinkEvent where
  | printed (s : String)
  | connOpened
  | sent (s : String)
  | connClosed
deriving DecidableEq

/-- `LogSensors.send_data`, as a function from the batch queue to the emitted
events and the queue afterwards.  Empty batch: immediate return, no events.
Dry run: print the whole batch as an indented JSON array and clear it.  Live:
open one connection, write each entry plus a newline in FIFO order, close. -/
def send_data (dryRun : Bool) (data : List String) : List SinkEvent × List String :=
  if data.isEmpty then ([], data)
  else if dryRun then ([SinkEvent.printed (dumpsIndent2 data)], [])
  else ([SinkEvent.connOpened] ++ data.map (fun m => SinkEvent.sent (m ++ "\n"))
          ++ [SinkEvent.connClosed], [])

/-- One iteration of `main`'s `while True` loop in dry-run mode, as scheduled
by `asyncio.gather([load_disk(...) for ...] + [load_sensors(), send_data()])`.

The gather starts the tasks in argument order.  Every collector's first step
suspends at `await asyncio.create_subprocess_shell(...)` before touching
`self.data`, while `send_data`'s dry-run body (emptiness check, print, clear)
is entirely synchronous; completion callbacks of the subprocess awaits run
only after the already-queued first steps.  Hence `send_data` observes
`self.data` exactly as the previous cycle left it, and this cycle's
collectors append their messages (`collected`, in completion order)
afterwards. -/
def cycleDry (collected : List String) (s : List String) : List SinkEvent × List String :=
  ((send_data true s).1, (send_data true s).2 ++ collected)

/-- Run `main`'s loop in dry-run mode for finitely many cycles, given the
messages each cycle's collectors produce; returns all emitted events and the
final batch queue. -/
def traceDry : List (List String) → List String → List SinkEvent × List String
  | [], s => ([], s)
  | c :: cs, s =>
    ((cycleDry c s).1 ++ (traceDry cs (cycleDry c s).2).1,
      (traceDry cs (cycleDry c s).2).2)

/-- The batches the dry-run sink actually prints, given the queue contents
`prev` left from before the first cycle and each cycle's collected messages:
in every cycle it prints the previous cycle's batch, when nonempty. -/
def shiftedBatches (prev : List String) : List (List String) → List (List String)
  | [] => []
  | c :: cs => (if prev.isEmpty then [] else [prev]) ++ shiftedBatches c cs

/-- The batch queue contents after the last of the given cycles, starting
from `s`: the most recent cycle's collected messages (or `s` when there was
no cycle). -/
def lastBatch (s : List String) : List (List String) → List String
  | [] => s
  | c :: cs => lastBatch c cs

/-- Python `%` on wall-clock seconds and a positive interval:
`t - i * floor(t / i)` (exact arithmetic). -/
def pymodQ (t i : ℚ) : ℚ :=
  t - i * (⌊t / i⌋ : ℤ)

/-- The scheduler's computed sleep duration,
`self.config['INTERVAL'] - time.time() % self.config['INTERVAL']`. -/
def sleepDuration (t i : ℚ) : ℚ :=
  i - pymodQ t i

/-! ## Lemmas about the selector matcher -/

theorem matchedValues_eq (p : RePat) (kvs : List (String × SensorTree)) :
    matchedValues p kvs = (kvs.filter fun kv => re_match p kv.1).map fun kv => kv.2 := by
  induction kvs with
  | nil => rfl
  | cons kv kvs ih =>
    rcases kv with ⟨k, t⟩
    cases h : re_match p k with
    | false => simp [matchedValues, h, ih, List.filter_cons]
    | true => simp [matchedValues, h, ih, List.filter_cons]

theorem selectChildren_nomatch (f : SensorTree → Except PyErr (List SensorTree)) (p : RePat)
    (kvs : List (String × SensorTree)) (h : ∀ kv ∈ kvs, re_match p kv.1 = false) :
    selectChildren f p kvs = Except.ok [] := by
  induction kvs with
  | nil => rfl
  | cons kv kvs ih =>
    have h1 := h kv (by simp)
    simp only [selectChildren, h1, Bool.false_eq_true, if_false]
    exact ih fun kv2 hm => h kv2 (by simp [hm])

theorem selectChildren_eq (f : SensorTree → Except PyErr (List SensorTree)) (p : RePat)
    (kvs : List (String × SensorTree)) :
    selectChildren f p kvs
      = exceptMap (fun kv => f kv.2) (kvs.filter fun kv => re_match p kv.1) := by
  induction kvs with
  | nil => rfl
  | cons kv kvs ih =>
    rcases kv with ⟨k, t⟩
    cases h : re_match p k with
    | false => simp [selectChildren, h, ih, List.filter_cons]
    | true =>
      simp [selectChildren, h, ih, List.filter_cons, exceptMap]
      cases f t with
      | error e => rfl
      | ok r =>
        cases exceptMap (fun kv => f kv.2) (List.filter (fun kv => re_match p kv.1) kvs) with
        | error e => rfl
        | ok rs => rfl

theorem foldl_append_eq (xs : List (List SensorTree)) (x : List SensorTree) :
    xs.foldl (fun a b => a ++ b) x = x ++ xs.flatten := by
  induction xs generalizing x with
  | nil => simp
  | cons y ys ih => simp [ih]

theorem reduceConcat_cons (x : List SensorTree) (xs : List (List SensorTree)) :
    reduceConcat (x :: xs) = Except.ok ((x :: xs).flatten) := by
  simp [reduceConcat, foldl_append_eq]

/-! ## Claims about `select_readings` -/

/-- C2 (amended): when the final selector matches zero keys of a mapping
node, `select_readings` returns an empty list; but when a non-final selector
matches zero keys, the `reduce` over the empty comprehension raises
`TypeError` instead of returning an empty list. -/
theorem c2_theorem :
    (∀ (kvs : List (String × SensorTree)) (p : RePat),
        (∀ kv ∈ kvs, re_match p kv.1 = false) →
        select_readings (SensorTree.node kvs) [p] = Except.ok [])
    ∧ ∀ (kvs : List (String × SensorTree)) (p q : RePat) (rest : List RePat),
        (∀ kv ∈ kvs, re_match p kv.1 = false) →
        select_readings (SensorTree.node kvs) (p :: q :: rest)
          = Except.error PyErr.typeError := by
  constructor
  · intro kvs p h
    have hf : kvs.filter (fun kv => re_match p kv.1) = [] :=
      List.filter_eq_nil_iff.mpr fun a ha => by simp [h a ha]
    simp [select_readings, matchedValues_eq, hf]
  · intro kvs p q rest h
    simp [select_readings, selectChildren_nomatch _ _ _ h, reduceConcat]

/-- C2 witness: a one-key tree and a selector matching nothing — empty list
at the final level, `TypeError` at a non-final level. -/
theorem c2_witness :
    select_readings (SensorTree.node [("x", SensorTree.leaf 1)])
        [[RItem.ch (RAtom.lit 'z')]] = Except.ok []
    ∧ select_readings (SensorTree.node [("x", SensorTree.leaf 1)])
        [[RItem.ch (RAtom.lit 'z')], [RItem.ch (RAtom.lit 'z')]]
          = Except.error PyErr.typeError :=
  ⟨c2_theorem.1 _ _ (by decide), c2_theorem.2 _ _ _ _ (by decide)⟩

/-- C2 counterexample: with selectors `["q", "."]` on the tree `{"y": 2}`,
the first (non-final) pattern matches zero keys and `select_readings` raises
`TypeError` (from `reduce` over an empty sequence) — it does not return the
empty list the claim promises. -/
theorem c2_counterexample :
    select_readings (SensorTree.node [("y", SensorTree.leaf 2)])
        [[RItem.ch (RAtom.lit 'q')], [RItem.ch RAtom.dot]]
      = Except.error PyErr.typeError := rfl

/-- C3 (amended): for a length-1 selector sequence on a mapping node,
`select_readings` returns the values, in key iteration order, of the direct
child keys accepted by `re.match` — i.e. keys of which the pattern matches a
PREFIX (anchored at the start only), not keys the pattern must match in
full. -/
theorem c3_theorem (kvs : List (String × SensorTree)) (p : RePat) :
    select_readings (SensorTree.node kvs) [p]
      = Except.ok ((kvs.filter fun kv => re_match p kv.1).map fun kv => kv.2) := by
  simp [select_readings, matchedValues_eq]

/-- C3 counterexample: the key `"ab"` does not full-match the pattern `"a"`,
yet `select_readings` returns its value, because `re.match` accepts a prefix
match — refuting the claimed full-match semantics. -/
theorem c3_counterexample :
    select_readings (SensorTree.node [("ab", SensorTree.leaf 5)])
        [[RItem.ch (RAtom.lit 'a')]] = Except.ok [SensorTree.leaf 5]
    ∧ re_fullmatch [RItem.ch (RAtom.lit 'a')] "ab" = false :=
  ⟨rfl, rfl⟩

/-- C4 (amended): for selector sequences of length > 1, whenever the
recursive selections over the matching children all succeed and at least one
child matched, the result is their concatenation in child-key order.  (When
zero children match, the source raises `TypeError` instead — see the
counterexample.) -/
theorem c4_theorem (kvs : List (String × SensorTree)) (p q : RePat) (rest : List RePat)
    (ls : List (List SensorTree))
    (h : exceptMap (fun kv => select_readings kv.2 (q :: rest))
           (kvs.filter fun kv => re_match p kv.1) = Except.ok ls)
    (hne : ls ≠ []) :
    select_readings (SensorTree.node kvs) (p :: q :: rest) = Except.ok ls.flatten := by
  have hsel : selectChildren (fun child => select_readings child (q :: rest)) p kvs
      = Except.ok ls := by
    rw [selectChildren_eq]; exact h
  rcases ls with _ | ⟨l0, ls2⟩
  · exact absurd rfl hne
  · simp [select_readings, hsel, reduceConcat_cons]

/-- C4 witness: a two-level tree where the first pattern prefix-matches two
of three siblings; the result is the concatenation of the two recursive
selections. -/
theorem c4_witness :
    select_readings
        (SensorTree.node
          [("a1", SensorTree.node [("b", SensorTree.leaf 1)]),
           ("a2", SensorTree.node [("b", SensorTree.leaf 2)]),
           ("c", SensorTree.node [("b", SensorTree.leaf 3)])])
        [[RItem.ch (RAtom.lit 'a')], [RItem.ch (RAtom.lit 'b')]]
      = Except.ok ([[SensorTree.leaf 1], [SensorTree.leaf 2]].flatten) :=
  c4_theorem _ _ _ _ _ rfl (by simp)

/-- C4 counterexample: with zero children matching the first selector the
claimed concatenation is the empty list, but `select_readings` raises
`TypeError` (from `reduce` over an empty sequence). -/
theorem c4_counterexample :
    select_readings (SensorTree.node [("x", SensorTree.node [("y", SensorTree.leaf 1)])])
        [[RItem.ch (RAtom.lit 'z')], [RItem.ch (RAtom.lit 'y')]]
      = Except.error PyErr.typeError := rfl

/-! ## Lemmas about dict operations -/

theorem lookupA_dictInsert (d : List (String × JVal)) (k : String) (v : JVal) (k2 : String) :
    lookupA (dictInsert d k v) k2 = if k2 = k then some v else lookupA d k2 := by
  induction d with
  | nil => by_cases h2 : k2 = k <;> simp [dictInsert, lookupA, h2]
  | cons kv rest ih =>
    rcases kv with ⟨k0, v0⟩
    by_cases h0 : k0 = k
    · by_cases h2 : k2 = k0
      · have hk : k2 = k := by rw [h2, h0]
        simp [dictInsert, lookupA, h0, h2, hk]
      · have hk : ¬(k2 = k) := by rw [← h0]; exact h2
        simp [dictInsert, lookupA, h0, h2, hk]
    · by_cases h2 : k2 = k0
      · have hk : ¬(k2 = k) := by rw [h2]; exact h0
        simp [dictInsert, lookupA, h0, h2, hk]
      · simp [dictInsert, lookupA, h0, h2, ih]

theorem lookupA_removeKey (d : List (String × JVal)) (k k2 : String) :
    lookupA (removeKey d k) k2 = if k2 = k then none else lookupA d k2 := by
  induction d with
  | nil => by_cases h2 : k2 = k <;> simp [removeKey, lookupA, h2]
  | cons kv rest ih =>
    rcases kv with ⟨k0, v0⟩
    by_cases h0 : k0 = k
    · by_cases h2 : k2 = k0
      · have hk : k2 = k := by rw [h2, h0]
        have ih2 := ih
        rw [hk] at ih2
        simp [removeKey, lookupA, h0, h2, hk, ih2]
      · have hk : ¬(k2 = k) := by rw [← h0]; exact h2
        simp [removeKey, lookupA, h0, h2, hk, ih]
    · by_cases h2 : k2 = k0
      · have hk : ¬(k2 = k) := by rw [h2]; exact h0
        simp [removeKey, lookupA, h0, h2, hk]
      · simp [removeKey, lookupA, h0, h2, ih]

theorem nat_mul8_lor (f p : ℕ) (hp : p < 8) : f * 8 ||| p = f * 8 + p := by
  have hp8 : p < 2 ^ 3 := by norm_num [hp]
  have h := Nat.mul_add_lt_is_or hp8 f
  have e : 2 ^ 3 * f = f * 8 := by ring
  rw [e] at h
  exact h.symm

/-! ## Claims about `format_message` -/

/-- C5 (amended): the header's numeric priority value is the bitwise or of
`facility << 3` and the priority, which coincides with
`facility × 8 + priority` whenever the priority is below 8; the defaults
(facility 3, priority 6) give 30 and a header starting `<30>`, and explicit
facility 1 with priority 5 gives 13 and a header starting `<13>`. -/
theorem c5_theorem :
    (∀ f p : ℕ, p < 8 →
      priorityValue [("Facility", JVal.int (f : ℤ)), ("Priority", JVal.int (p : ℤ))]
        = Except.ok ((f : ℤ) * 8 + (p : ℤ)))
    ∧ priorityValue [] = Except.ok 30
    ∧ priorityValue [("Facility", JVal.int 1), ("Priority", JVal.int 5)] = Except.ok 13
    ∧ (∀ t : String, mkHeader 30 t = "<30>" ++ t)
    ∧ ∀ t : String, mkHeader 13 t = "<13>" ++ t := by
  refine ⟨?_, rfl, rfl, fun t => rfl, fun t => rfl⟩
  intro f p hp
  have hbase : priorityValue [("Facility", JVal.int (f : ℤ)), ("Priority", JVal.int (p : ℤ))]
      = Except.ok (Int.lor ((f : ℤ) <<< (3 : ℤ)) (p : ℤ)) := rfl
  rw [hbase]
  refine congrArg Except.ok ?_
  have key : Int.lor ((f : ℤ) <<< (3 : ℤ)) ((p : ℕ) : ℤ) = Int.ofNat (f * 8 + p) := by
    show Int.ofNat (Nat.shiftLeft' false f 3 ||| p) = Int.ofNat (f * 8 + p)
    rw [Nat.shiftLeft'_false, Nat.shiftLeft_eq]
    norm_num [nat_mul8_lor f p hp]
  rw [key, Int.ofNat_eq_natCast]
  push_cast
  ring

/-- C5 witness: the general statement instantiated at facility 2,
priority 7 (a priority below 8), giving `2 × 8 + 7 = 23`. -/
theorem c5_witness :
    priorityValue [("Facility", JVal.int 2), ("Priority", JVal.int 7)] = Except.ok 23 := by
  have h := c5_theorem.1 2 7 (by norm_num)
  norm_num at h
  exact h

/-- C5 counterexample: with facility 1 and priority 8 the source computes
`(1 << 3) | 8 = 8`, but the claimed formula `facility × 8 + priority` gives
16 — the claim fails for priorities outside 0–7. -/
theorem c5_counterexample :
    priorityValue [("Facility", JVal.int 1), ("Priority", JVal.int 8)] = Except.ok 8
    ∧ (8 : ℤ) ≠ 1 * 8 + 8 := by
  refine ⟨rfl, by norm_num⟩

/-- C6 (amended): for every message whose reading name differs from the
literal string `"readings"`, with a nonempty samples list whose mean
computes, the output object maps the reading's name to the arithmetic mean
and contains no `readings` key; with an empty samples list,
`format_message` fails (the `reduce` over zero samples — the spec's
`EmptyReading`).  When the reading is named `"readings"`, the final
`del message['readings']` deletes the freshly stored mean — see the
counterexample. -/
theorem c6_theorem :
    (∀ (msg : List (String × JVal)) (hT hn tg iso nm : String) (l : List JVal)
        (m : JVal) (v : ℤ),
        priorityValue msg = Except.ok v →
        lookupA msg "name" = some (JVal.str nm) →
        nm ≠ "readings" →
        lookupA msg "readings" = some (JVal.arr l) →
        meanOf l = Except.ok m →
        (format_message msg hT hn tg iso).map
            (fun r => (lookupA r.payload nm, lookupA r.payload "readings"))
          = Except.ok (some m, none))
    ∧ ∀ (msg : List (String × JVal)) (hT hn tg iso nm : String) (v : ℤ),
        priorityValue msg = Except.ok v →
        lookupA msg "name" = some (JVal.str nm) →
        lookupA msg "readings" = some (JVal.arr []) →
        format_message msg hT hn tg iso = Except.error PyErr.typeError := by
  constructor
  · intro msg hT hn tg iso nm l m v hv hnm hne hrd hmean
    have hgn : getName msg = Except.ok nm := by simp [getName, hnm]
    have hgr : getReadings msg = Except.ok l := by simp [getReadings, hrd]
    by_cases h1 : nm = "hostname"
    · simp [format_message, hv, hgn, hgr, hmean, dictExtend, dictInsert, Except.map,
            lookupA_removeKey, lookupA_dictInsert, hne, h1]
    · by_cases h2 : nm = "timereported"
      · simp [format_message, hv, hgn, hgr, hmean, dictExtend, dictInsert, Except.map,
              lookupA_removeKey, lookupA_dictInsert, hne, h1, h2, Ne.symm h1]
      · simp [format_message, hv, hgn, hgr, hmean, dictExtend, dictInsert, Except.map,
              lookupA_removeKey, lookupA_dictInsert, hne, Ne.symm hne, h1, h2,
              Ne.symm h1, Ne.symm h2]
  · intro msg hT hn tg iso nm v hv hnm hrd
    have hgn : getName msg = Except.ok nm := by simp [getName, hnm]
    have hgr : getReadings msg = Except.ok ([] : List JVal) := by simp [getReadings, hrd]
    simp [format_message, hv, hgn, hgr, meanOf, reduceAdd]

/-- C6 witness: mean of `[10, 20, 30]` is `20`, stored under the reading
name `cpu` with no `readings` key in the output; a reading with zero
samples fails. -/
theorem c6_witness :
    (format_message [("name", JVal.str "cpu"),
          ("readings", JVal.arr [JVal.int 10, JVal.int 20, JVal.int 30])] "T" "h" "g" "i").map
        (fun r => (lookupA r.payload "cpu", lookupA r.payload "readings"))
      = Except.ok (some (JVal.rat 20), none)
    ∧ format_message [("name", JVal.str "t2"), ("readings", JVal.arr [])] "T" "h" "g" "i"
        = Except.error PyErr.typeError :=
  ⟨c6_theorem.1 _ "T" "h" "g" "i" "cpu" [JVal.int 10, JVal.int 20, JVal.int 30]
      (JVal.rat 20) 30 rfl rfl (by decide) rfl rfl,
   c6_theorem.2 _ "T" "h" "g" "i" "t2" 30 rfl rfl rfl⟩

/-- C6 counterexample: a reading named literally `"readings"` with the
single sample 7.  The claim requires the output object to hold the mean 7
under the key `"readings"`; instead `del message['readings']` removes it and
the mean appears nowhere in the output. -/
theorem c6_counterexample :
    format_message [("name", JVal.str "readings"), ("readings", JVal.arr [JVal.int 7])]
        "T" "h" "g" "i"
      = Except.ok { header := "<30>T", host := "h", procTag := "g",
                    payload := [("name", JVal.str "readings"), ("hostname", JVal.str "h"),
                                ("timereported", JVal.str "i")] } := rfl

/-! ## Claim about the scheduler's sleep computation -/

/-- C7 (confirmed): for every positive interval and every wall-clock time,
the computed sleep duration is `interval − (seconds mod interval)` and lies
in the half-open range `(0, interval]`. -/
theorem c7_theorem (i t : ℚ) (hi : 0 < i) :
    sleepDuration t i = i - pymodQ t i
    ∧ 0 < sleepDuration t i ∧ sleepDuration t i ≤ i := by
  have hne : i ≠ 0 := ne_of_gt hi
  have hit : i * (t / i) = t := by field_simp
  have hfr : pymodQ t i = i * Int.fract (t / i) := by
    unfold pymodQ Int.fract
    rw [mul_sub, hit]
  have h0 : 0 ≤ Int.fract (t / i) := Int.fract_nonneg _
  have h1 : Int.fract (t / i) < 1 := Int.fract_lt_one _
  refine ⟨rfl, ?_, ?_⟩
  · unfold sleepDuration
    rw [hfr]
    nlinarith
  · unfold sleepDuration
    rw [hfr]
    nlinarith

/-- C7 witness: interval 60 at wall-clock second 23 sleeps 37 seconds,
within `(0, 60]`. -/
theorem c7_witness :
    (0 : ℚ) < 60 ∧ sleepDuration 23 60 = 37
    ∧ 0 < sleepDuration 23 60 ∧ sleepDuration 23 60 ≤ 60 := by
  have h := c7_theorem 60 23 (by norm_num)
  have hfl : (⌊(23 : ℚ) / 60⌋ : ℤ) = 0 := by
    rw [Int.floor_eq_zero_iff]
    constructor <;> norm_num
  refine ⟨by norm_num, ?_, h.2.1, h.2.2⟩
  rw [show sleepDuration 23 60 = 60 - pymodQ 23 60 from rfl]
  rw [show pymodQ 23 60 = 23 - 60 * ((⌊(23 : ℚ) / 60⌋ : ℤ) : ℚ) from rfl, hfl]
  norm_num

/-! ## Lemmas for the disk collector -/

theorem preserve4_insert (msg : List (String × JVal)) (k : String) (v : JVal)
    (hk : k = "model" ∨ k = "serial") :
    ∀ k2, (k2 = "Facility" ∨ k2 = "Priority" ∨ k2 = "name" ∨ k2 = "readings") →
      lookupA (dictInsert msg k v) k2 = lookupA msg k2 := by
  intro k2 hk2
  have hne2 : ¬(k2 = k) := by
    rcases hk with h | h <;> rcases hk2 with h2 | h2 | h2 | h2 <;> simp [h, h2]
  rw [lookupA_dictInsert, if_neg hne2]

theorem diskInv_of_preserve (dn : String) (msg m2 : List (String × JVal))
    (hinv : diskInv dn msg)
    (hp : ∀ k2, (k2 = "Facility" ∨ k2 = "Priority" ∨ k2 = "name" ∨ k2 = "readings") →
      lookupA m2 k2 = lookupA msg k2) : diskInv dn m2 := by
  obtain ⟨hF, hP, hN, hR⟩ := hinv
  refine ⟨(hp _ (Or.inl rfl)).trans hF, (hp _ (Or.inr (Or.inl rfl))).trans hP,
          (hp _ (Or.inr (Or.inr (Or.inl rfl)))).trans hN, ?_⟩
  rcases hR with h | ⟨z, h⟩
  · exact Or.inl ((hp _ (Or.inr (Or.inr (Or.inr rfl)))).trans h)
  · exact Or.inr ⟨z, (hp _ (Or.inr (Or.inr (Or.inr rfl)))).trans h⟩

theorem diskInv_insert_readings (dn : String) (msg : List (String × JVal)) (z : ℤ)
    (hinv : diskInv dn msg) :
    diskInv dn (dictInsert msg "readings" (JVal.arr [JVal.int z])) := by
  obtain ⟨hF, hP, hN, _⟩ := hinv
  refine ⟨?_, ?_, ?_, Or.inr ⟨z, ?_⟩⟩ <;> simp [lookupA_dictInsert, hF, hP, hN]

theorem attrStep_cases (msg : List (String × JVal)) (t0 : String) (rest : List String)
    (hok : (if t0 = "190" ∨ t0 = "194" then
        match (t0 :: rest)[9]? with
        | none => false
        | some t9 =>
          match pyInt t9 with
          | Except.ok _ => true
          | Except.error _ => false
      else true) = true) :
    (¬(t0 = "190" ∨ t0 = "194") ∧ attrStep msg (t0 :: rest) = Except.ok msg)
    ∨ ((t0 = "190" ∨ t0 = "194") ∧ ∃ z : ℤ,
        attrStep msg (t0 :: rest)
          = Except.ok (dictInsert msg "readings" (JVal.arr [JVal.int z]))) := by
  by_cases hattr : t0 = "190" ∨ t0 = "194"
  · rw [if_pos hattr] at hok
    refine Or.inr ⟨hattr, ?_⟩
    cases h9 : (t0 :: rest)[9]? with
    | none => rw [h9] at hok; simp at hok
    | some t9 =>
      rw [h9] at hok
      simp only [] at hok
      cases hz : pyInt t9 with
      | error e => rw [hz] at hok; simp at hok
      | ok z => exact ⟨z, by simp [attrStep, hattr, h9, hz]⟩
  · exact Or.inl ⟨hattr, by simp [attrStep, hattr]⟩

theorem labelStep_cases (label0 label1 field : String) (msg : List (String × JVal))
    (t0 : String) (rest : List String)
    (hok : (if t0 = label0 then !rest.isEmpty else true) = true) :
    labelStep label0 label1 field msg (t0 :: rest) = Except.ok msg
    ∨ ∃ v, labelStep label0 label1 field msg (t0 :: rest)
        = Except.ok (dictInsert msg field (JVal.str v)) := by
  by_cases hL : t0 = label0
  · rw [if_pos hL] at hok
    cases rest with
    | nil => simp at hok
    | cons t1 r2 =>
      by_cases hM : t1 = label1
      · exact Or.inr ⟨String.intercalate " " r2, by simp [labelStep, hL, hM]⟩
      · exact Or.inl (by simp [labelStep, hL, hM])
  · exact Or.inl (by simp [labelStep, hL])

theorem labelStep_preserved (label0 label1 field : String)
    (hfield : field = "model" ∨ field = "serial") (m : List (String × JVal))
    (t0 : String) (rest : List String)
    (hok : (if t0 = label0 then !rest.isEmpty else true) = true) :
    ∃ m2, labelStep label0 label1 field m (t0 :: rest) = Except.ok m2 ∧
      ∀ k2, (k2 = "Facility" ∨ k2 = "Priority" ∨ k2 = "name" ∨ k2 = "readings") →
        lookupA m2 k2 = lookupA m k2 := by
  rcases labelStep_cases label0 label1 field m t0 rest hok with h | ⟨v, h⟩
  · exact ⟨m, h, fun k2 _ => rfl⟩
  · exact ⟨_, h, preserve4_insert m field (JVal.str v) hfield⟩

theorem loadDiskLine_step (dn : String) (msg : List (String × JVal)) (line : String)
    (hok : lineOk line = true) (hinv : diskInv dn msg) :
    ∃ msg2, loadDiskLine msg line = Except.ok msg2 ∧ diskInv dn msg2 ∧
      (lookupA msg2 "readings" = none ↔
        (lookupA msg "readings" = none ∧ isAttrLine line = false)) := by
  unfold lineOk at hok
  cases hsp : pySplit line with
  | nil =>
    refine ⟨msg, ?_, hinv, ?_⟩
    · simp [loadDiskLine, hsp, attrStep, labelStep]
    · simp [isAttrLine, hsp]
  | cons t0 rest =>
    rw [hsp] at hok
    rw [Bool.and_eq_true, Bool.and_eq_true] at hok
    obtain ⟨⟨ha, hd⟩, hs⟩ := hok
    rcases attrStep_cases msg t0 rest ha with ⟨hno, hstep⟩ | ⟨hyes, z, hstep⟩
    · have hA : isAttrLine line = false := by simp [isAttrLine, hsp, hno]
      obtain ⟨m2, hD, hp2⟩ :=
        labelStep_preserved "Device" "Model:" "model" (Or.inl rfl) msg t0 rest hd
      obtain ⟨m3, hS, hp3⟩ :=
        labelStep_preserved "Serial" "Number:" "serial" (Or.inr rfl) m2 t0 rest hs
      refine ⟨m3, ?_, ?_, ?_⟩
      · simp [loadDiskLine, hsp, hstep, hD, hS]
      · exact diskInv_of_preserve dn m2 m3 (diskInv_of_preserve dn msg m2 hinv hp2) hp3
      · rw [hp3 "readings" (by simp), hp2 "readings" (by simp)]
        simp [hA]
    · have hA : isAttrLine line = true := by simp [isAttrLine, hsp, hyes]
      have hinv1 : diskInv dn (dictInsert msg "readings" (JVal.arr [JVal.int z])) :=
        diskInv_insert_readings dn msg z hinv
      have hr1 : lookupA (dictInsert msg "readings" (JVal.arr [JVal.int z])) "readings"
          = some (JVal.arr [JVal.int z]) := by simp [lookupA_dictInsert]
      obtain ⟨m2, hD, hp2⟩ :=
        labelStep_preserved "Device" "Model:" "model" (Or.inl rfl)
          (dictInsert msg "readings" (JVal.arr [JVal.int z])) t0 rest hd
      obtain ⟨m3, hS, hp3⟩ :=
        labelStep_preserved "Serial" "Number:" "serial" (Or.inr rfl) m2 t0 rest hs
      refine ⟨m3, ?_, ?_, ?_⟩
      · simp [loadDiskLine, hsp, hstep, hD, hS]
      · exact diskInv_of_preserve dn m2 m3 (diskInv_of_preserve dn _ m2 hinv1 hp2) hp3
      · rw [hp3 "readings" (by simp), hp2 "readings" (by simp), hr1]
        simp [hA]

theorem foldl_lines_ok (dn : String) (lines : List String) :
    ∀ msg, diskInv dn msg → (∀ l ∈ lines, lineOk l = true) →
    ∃ msgF, List.foldlM loadDiskLine msg lines = Except.ok msgF ∧ diskInv dn msgF ∧
      (lookupA msgF "readings" = none ↔
        (lookupA msg "readings" = none ∧ hasAttr lines = false)) := by
  induction lines with
  | nil =>
    intro msg hinv _
    exact ⟨msg, rfl, hinv, by simp [hasAttr]⟩
  | cons l ls ih =>
    intro msg hinv hok
    obtain ⟨m2, hm2, hinv2, hiff⟩ := loadDiskLine_step dn msg l (hok l (by simp)) hinv
    obtain ⟨msgF, hF, hinvF, hiffF⟩ := ih m2 hinv2 fun l2 hl2 => hok l2 (by simp [hl2])
    refine ⟨msgF, ?_, hinvF, ?_⟩
    · rw [List.foldlM_cons, hm2]
      exact hF
    · rw [hiffF, hiff]
      simp only [hasAttr, List.any_cons, Bool.or_eq_false_iff]
      tauto

theorem loadDiskParse_ok (dn : String) (lines : List String)
    (h : ∀ l ∈ lines, lineOk l = true) :
    ∃ msgF, loadDiskParse dn lines = Except.ok msgF ∧ diskInv dn msgF ∧
      (lookupA msgF "readings" = none ↔ hasAttr lines = false) := by
  have hinv0 : diskInv dn [("name", JVal.str dn)] := by
    refine ⟨?_, ?_, ?_, Or.inl ?_⟩ <;> simp [lookupA]
  obtain ⟨msgF, hF, hinvF, hiff⟩ := foldl_lines_ok dn lines [("name", JVal.str dn)] hinv0 h
  refine ⟨msgF, hF, hinvF, ?_⟩
  rw [hiff]
  simp [lookupA]

/-! ## Claims about the disk collector -/

/-- C8 (amended): for tool output whose lines are well formed (a recognized
attribute line carries an integer tenth token; lines starting `Device` or
`Serial` have a second token), a disk whose output has no recognized
attribute line contributes no message and no error, and a disk whose output
has one contributes exactly one message, built from a single-sample
`readings` list.  (On malformed lines `load_disk` raises instead — see the
counterexample.) -/
theorem c8_theorem (dn : String) (lines : List String) (hT hn tg iso : String)
    (h : ∀ l ∈ lines, lineOk l = true) :
    (hasAttr lines = false → load_disk dn lines hT hn tg iso = Except.ok [])
    ∧ (hasAttr lines = true →
        ∃ msgF z f, loadDiskParse dn lines = Except.ok msgF ∧
          lookupA msgF "readings" = some (JVal.arr [JVal.int z]) ∧
          load_disk dn lines hT hn tg iso = Except.ok [f]) := by
  obtain ⟨msgF, hF, hinvF, hiff⟩ := loadDiskParse_ok dn lines h
  constructor
  · intro hna
    have hr : lookupA msgF "readings" = none := hiff.mpr hna
    simp [load_disk, hF, hr]
  · intro hattr
    obtain ⟨hFc, hPc, hNm, hRd⟩ := hinvF
    rcases hRd with hnone | ⟨z, hz⟩
    · rw [hiff] at hnone
      rw [hnone] at hattr
      cases hattr
    · have hpv : priorityValue msgF = Except.ok (Int.lor ((3 : ℤ) <<< (3 : ℤ)) 6) := by
        simp [priorityValue, priorityBase, hFc, hPc]
      have hgn : getName msgF = Except.ok dn := by simp [getName, hNm]
      have hgr : getReadings msgF = Except.ok [JVal.int z] := by simp [getReadings, hz]
      have hmean : meanOf [JVal.int z] = Except.ok (JVal.rat (z : ℚ)) := by
        simp [meanOf, reduceAdd, pure, Except.pure, jDivNat]
      have hfmt : format_message msgF hT hn tg iso = Except.ok
          { header := mkHeader (Int.lor ((3 : ℤ) <<< (3 : ℤ)) 6) hT
            host := hn
            procTag := tg
            payload := removeKey (dictExtend msgF (dictExtend []
              [("hostname", JVal.str hn), ("timereported", JVal.str iso),
               (dn, JVal.rat (z : ℚ))])) "readings" } := by
        simp [format_message, hpv, hgn, hgr, hmean]
      refine ⟨msgF, z,
        { header := mkHeader (Int.lor ((3 : ℤ) <<< (3 : ℤ)) 6) hT
          host := hn
          procTag := tg
          payload := removeKey (dictExtend msgF (dictExtend []
            [("hostname", JVal.str hn), ("timereported", JVal.str iso),
             (dn, JVal.rat (z : ℚ))])) "readings" }, hF, hz, ?_⟩
      simp [load_disk, hF, hz, hfmt]

/-- C8 witness: an output with only a `Device Model:` line contributes no
message, while an output with a 10-column `194` attribute row contributes
exactly one message built from the single raw value 36. -/
theorem c8_witness :
    load_disk "sda" ["Device Model: ST1000"] "T" "h" "g" "i" = Except.ok []
    ∧ load_disk "sda" ["194 Temperature_Celsius 0x0022 036 053 000 Old_age Always - 36"]
        "T" "h" "g" "i"
      = Except.ok [{ header := "<30>T", host := "h", procTag := "g",
                     payload := [("name", JVal.str "sda"), ("hostname", JVal.str "h"),
                                 ("timereported", JVal.str "i"), ("sda", JVal.rat 36)] }] :=
  ⟨( c8_theorem "sda" ["Device Model: ST1000"] "T" "h" "g" "i" (by decide)).1 (by decide),
   rfl⟩

/-- C8 counterexample: the output line `"Device"` contains no recognized
attribute token, yet `load_disk` raises `IndexError` (short-circuit
`line[1]` access) instead of contributing zero messages without error. -/
theorem c8_counterexample :
    load_disk "sda" ["Device"] "T" "h" "g" "i" = Except.error PyErr.indexError := rfl

/-! ## Claims about the sink -/

/-- C9 (confirmed): in dry-run mode a nonempty batch is printed as the
2-space-indented JSON array of exactly the batch's message strings in FIFO
order (`json.dumps(data, indent=2)`), and the batch queue is empty
afterwards. -/
theorem c9_theorem (data : List String) (h : data ≠ []) :
    send_data true data = ([SinkEvent.printed (dumpsIndent2 data)], []) := by
  rcases data with _ | ⟨m, rest⟩
  · exact absurd rfl h
  · simp [send_data]

/-- C9 witness: the two-message batch prints the literal two-element
indented JSON array and leaves the queue empty. -/
theorem c9_witness :
    send_data true ["m1", "m2"]
      = ([SinkEvent.printed "[\n  \"m1\",\n  \"m2\"\n]"], []) := by
  rw [ c9_theorem ["m1", "m2"] (by simp)]
  rfl

/-- C10 (confirmed): with an empty batch, `send_data` returns immediately in
both modes: no events at all (no connection opened, nothing printed) and the
queue is unchanged. -/
theorem c10_theorem (dryRun : Bool) : send_data dryRun [] = ([], []) := rfl

/-! ## Claim about the cycle/sink ordering -/

/-- C1 (amended): in dry-run mode the Sink runs inside the same gather as
the collectors and observes the queue before any collector of the cycle has
appended; over any run it therefore prints exactly the nonempty batches left
from the previous cycle (shifted by one cycle), and the queue at the end of
a run holds the last cycle's collected messages — the queue is NOT empty at
cycle boundaries whenever a cycle collected messages. -/
theorem c1_theorem (cs : List (List String)) (s : List String) :
    traceDry cs s
      = ((shiftedBatches s cs).map fun b => SinkEvent.printed (dumpsIndent2 b),
         lastBatch s cs) := by
  induction cs generalizing s with
  | nil => rfl
  | cons c cs ih =>
    rcases s with _ | ⟨m, rest⟩
    · simp [traceDry, cycleDry, send_data, shiftedBatches, lastBatch, ih]
    · simp [traceDry, cycleDry, send_data, shiftedBatches, lastBatch, ih]

/-- C1 counterexample: a single dry-run cycle whose collectors produced the
message `"m1"`: the Sink prints nothing (it never observes the messages
collected in its own cycle) and the queue still holds `"m1"` when the
cycle's sleep begins — the queue is not empty at the end of the cycle,
refuting the claimed join barrier and drain. -/
theorem c1_counterexample : traceDry [["m1"]] [] = ([], ["m1"]) := rfl
